import Mathlib

/-!
Shallow embedding of the prime-ai analysis pipeline (src/server.js and the
equivalent split modules src/services/utils.js, src/unnamed/part_000,
src/unnamed/part_001), together with theorems settling the frozen claims.

Conventions of the embedding:
* JavaScript values parsed from JSON are modelled by the inductive `Json`.
  `JSON.parse` is modelled by `jsonParse`, a fueled recursive-descent parser
  for the JSON grammar (numbers are kept as their literal text, since no
  behaviour of this program depends on floating-point arithmetic; `\uXXXX`
  escapes decode through `Char.ofNat`, a faithful approximation for all
  scalar values).
* Strings are Lean `String`; all manipulation is done through `List Char`
  helper functions that mirror the JavaScript string operations used by the
  source (`trim`, `slice(0, n)`, `replace(/\s+/g, " ")`).
* External collaborators (OpenAI vision/synthesis calls, Brave search,
  page fetches) are oracles passed in as function arguments; a call that can
  throw is modelled with `Except` or an explicit outcome type.  Fixed prompt
  text is configuration, not core behaviour (spec §1), so the synthesis
  oracle receives the two dynamic inputs of the prompt (product data and the
  formatted scraped block).
* `setTimeout` delays carry no observable state; they are recorded as
  explicit `Event.delay` entries in the instrumented call traces so that
  claims about "a fixed delay before the fallback call" are statable.
-/

namespace PrimeAI

/-- JSON values as produced by `JSON.parse`.  Object member lists carry
unique keys: duplicate keys in the source text overwrite in place, exactly as
`JSON.parse` does.  Number literals are kept verbatim. -/
inductive Json where
  | null : Json
  | bool (b : Bool) : Json
  | num (lit : String) : Json
  | str (s : String) : Json
  | arr (elems : List Json) : Json
  | obj (members : List (String × Json)) : Json

/-- Insert a member the way `JSON.parse` builds objects: a duplicate key
overwrites the earlier value in place, otherwise the pair is appended. -/
def insertMember : List (String × Json) → String → Json → List (String × Json)
  | [], k, v => [(k, v)]
  | (k', v') :: rest, k, v =>
    if k' = k then (k', v) :: rest else (k', v') :: insertMember rest k v

/-- Property lookup on an object member list (keys are unique). -/
def lookupMember : List (String × Json) → String → Option Json
  | [], _ => none
  | (k', v') :: rest, k => if k' = k then some v' else lookupMember rest k

/-- JavaScript property access `j.k` for a parsed JSON value: defined only on
objects, `undefined` (here `none`) otherwise. -/
def Json.objGet (j : Json) (k : String) : Option Json :=
  match j with
  | .obj ms => lookupMember ms k
  | _ => none

/-- JSON insignificant whitespace (exactly the four characters the JSON
grammar allows between tokens). -/
def isJsonWs (c : Char) : Bool :=
  c = ' ' ∨ c = '\t' ∨ c = '\n' ∨ c = '\r'

/-- Skip JSON whitespace. -/
def skipWs : List Char → List Char
  | [] => []
  | c :: cs => if isJsonWs c then skipWs cs else c :: cs

/-- Hexadecimal digit value, for `\uXXXX` escapes. -/
def hexVal (c : Char) : Option Nat :=
  if '0' ≤ c ∧ c ≤ '9' then some (c.toNat - '0'.toNat)
  else if 'a' ≤ c ∧ c ≤ 'f' then some (c.toNat - 'a'.toNat + 10)
  else if 'A' ≤ c ∧ c ≤ 'F' then some (c.toNat - 'A'.toNat + 10)
  else none

/-- Parse the body of a JSON string after the opening quote, handling the
escape sequences of the JSON grammar and rejecting raw control characters. -/
def parseStringBody : Nat → List Char → List Char → Option (String × List Char)
  | 0, _, _ => none
  | fuel + 1, cs, acc =>
    match cs with
    | [] => none
    | '"' :: rest => some (⟨acc.reverse⟩, rest)
    | '\\' :: esc :: rest =>
      match esc with
      | '"' => parseStringBody fuel rest ('"' :: acc)
      | '\\' => parseStringBody fuel rest ('\\' :: acc)
      | '/' => parseStringBody fuel rest ('/' :: acc)
      | 'b' => parseStringBody fuel rest ('\x08' :: acc)
      | 'f' => parseStringBody fuel rest ('\x0c' :: acc)
      | 'n' => parseStringBody fuel rest ('\n' :: acc)
      | 'r' => parseStringBody fuel rest ('\r' :: acc)
      | 't' => parseStringBody fuel rest ('\t' :: acc)
      | 'u' =>
        match rest with
        | a :: b :: c :: d :: rest' =>
          match hexVal a, hexVal b, hexVal c, hexVal d with
          | some x, some y, some z, some w =>
            parseStringBody fuel rest' (Char.ofNat (((x * 16 + y) * 16 + z) * 16 + w) :: acc)
          | _, _, _, _ => none
        | _ => none
      | _ => none
    | c :: rest => if c.toNat < 0x20 then none else parseStringBody fuel rest (c :: acc)

/-- Split a maximal run of decimal digits off the front of the input. -/
def splitDigits (cs : List Char) : List Char × List Char :=
  (cs.takeWhile Char.isDigit, cs.dropWhile Char.isDigit)

/-- Parse a JSON number literal (sign, integer part with no leading zeros,
optional fraction, optional exponent), keeping the literal text. -/
def parseNumber (cs : List Char) : Option (Json × List Char) :=
  let (negPart, cs₁) :=
    match cs with
    | '-' :: r => (['-'], r)
    | _ => (([] : List Char), cs)
  match splitDigits cs₁ with
  | ([], _) => none
  | (ds, rest) =>
    if ds.head? = some '0' ∧ ds.length > 1 then none
    else
      let fracStep : Option (List Char × List Char) :=
        match rest with
        | '.' :: r =>
          match splitDigits r with
          | ([], _) => none
          | (fs, r') => some ('.' :: fs, r')
        | _ => some ([], rest)
      match fracStep with
      | none => none
      | some (fracPart, rest₂) =>
        let expStep : Option (List Char × List Char) :=
          match rest₂ with
          | e :: r =>
            if e = 'e' ∨ e = 'E' then
              let (sgn, r₁) :=
                match r with
                | '+' :: r' => (['+'], r')
                | '-' :: r' => (['-'], r')
                | _ => (([] : List Char), r)
              match splitDigits r₁ with
              | ([], _) => none
              | (es, r') => some (e :: (sgn ++ es), r')
            else some ([], rest₂)
          | [] => some ([], rest₂)
        match expStep with
        | none => none
        | some (expPart, rest₃) =>
          some (.num ⟨negPart ++ ds ++ fracPart ++ expPart⟩, rest₃)

mutual

/-- Fueled recursive-descent parser for a JSON value; the input is expected
to begin at the value (whitespace already skipped). -/
def parseValue : Nat → List Char → Option (Json × List Char)
  | 0, _ => none
  | fuel + 1, cs =>
    match cs with
    | [] => none
    | '{' :: rest => parseObjRest fuel rest
    | '[' :: rest => parseArrRest fuel rest
    | '"' :: rest =>
      match parseStringBody fuel rest [] with
      | some (s, r) => some (.str s, r)
      | none => none
    | 't' :: 'r' :: 'u' :: 'e' :: rest => some (.bool true, rest)
    | 'f' :: 'a' :: 'l' :: 's' :: 'e' :: rest => some (.bool false, rest)
    | 'n' :: 'u' :: 'l' :: 'l' :: rest => some (.null, rest)
    | _ => parseNumber cs

/-- After the opening `{`: the empty object, or a member list. -/
def parseObjRest : Nat → List Char → Option (Json × List Char)
  | 0, _ => none
  | fuel + 1, cs =>
    match skipWs cs with
    | '}' :: rest => some (.obj [], rest)
    | cs' => parseMembers fuel cs' []

/-- Members of an object, starting at a key (whitespace already skipped). -/
def parseMembers : Nat → List Char → List (String × Json) → Option (Json × List Char)
  | 0, _, _ => none
  | fuel + 1, cs, acc =>
    match cs with
    | '"' :: rest =>
      match parseStringBody fuel rest [] with
      | none => none
      | some (key, r₁) =>
        match skipWs r₁ with
        | ':' :: r₂ =>
          match parseValue fuel (skipWs r₂) with
          | none => none
          | some (v, r₃) =>
            match skipWs r₃ with
            | ',' :: r₄ => parseMembers fuel (skipWs r₄) (insertMember acc key v)
            | '}' :: r₄ => some (.obj (insertMember acc key v), r₄)
            | _ => none
        | _ => none
    | _ => none

/-- After the opening `[`: the empty array, or an element list. -/
def parseArrRest : Nat → List Char → Option (Json × List Char)
  | 0, _ => none
  | fuel + 1, cs =>
    match skipWs cs with
    | ']' :: rest => some (.arr [], rest)
    | cs' => parseElems fuel cs' []

/-- Elements of an array, starting at a value (whitespace already skipped). -/
def parseElems : Nat → List Char → List Json → Option (Json × List Char)
  | 0, _, _ => none
  | fuel + 1, cs, acc =>
    match parseValue fuel cs with
    | none => none
    | some (v, r) =>
      match skipWs r with
      | ',' :: r₂ => parseElems fuel (skipWs r₂) (v :: acc)
      | ']' :: r₂ => some (.arr (v :: acc).reverse, r₂)
      | _ => none

end

/-- `JSON.parse` on a character list: a single JSON value, possibly
surrounded by whitespace, covering the whole input. -/
def jsonParseChars (cs : List Char) : Option Json :=
  match parseValue (4 * cs.length + 8) (skipWs cs) with
  | some (v, rest) => if skipWs rest = [] then some v else none
  | none => none

/-- `JSON.parse` on a string (`none` models a thrown `SyntaxError`). -/
def jsonParse (s : String) : Option Json :=
  jsonParseChars s.data

/-- Index of the first character satisfying `p`. -/
def firstIdx (p : Char → Bool) : List Char → Option Nat
  | [] => none
  | c :: cs => if p c then some 0 else (firstIdx p cs).map (· + 1)

/-- Index of the last character satisfying `p`. -/
def lastIdx (p : Char → Bool) : List Char → Option Nat
  | [] => none
  | c :: cs =>
    match lastIdx p cs with
    | some j => some (j + 1)
    | none => if p c then some 0 else none

/-- The match of the regular expression `/\{[\s\S]*\}/` : the greedy single
span from the leftmost `{` to the rightmost `}` (which must lie strictly
after it), or `none` when the pattern does not match. -/
def braceSpan (cs : List Char) : Option (List Char) :=
  match firstIdx (· = '{') cs, lastIdx (· = '}') cs with
  | some i, some j => if i < j then some ((cs.drop i).take (j - i + 1)) else none
  | _, _ => none

namespace Utils

/-- `Utils.extractJsonFromText` (src/services/utils.js lines 2-12): match the
greedy `{...}` span and `JSON.parse` it; both the missing-span case and the
parse-failure case return `null` (here `none`).  The empty string is falsy in
the source's `if (!text)` guard, and it has no span either, so the model
needs no separate guard. -/
def extractJsonFromText (text : String) : Option Json :=
  match braceSpan text.data with
  | none => none
  | some span => jsonParseChars span

end Utils

/-! ## JavaScript string helpers -/

/-- Whitespace for the purposes of `trim` and `\s` (approximated by Unicode
whitespace, which covers every character this program's strings contain). -/
def isJsWs (c : Char) : Bool := c.isWhitespace

/-- `String.prototype.trim`. -/
def trimChars (cs : List Char) : List Char :=
  ((cs.dropWhile isJsWs).reverse.dropWhile isJsWs).reverse

/-- `s.trim()`. -/
def jsTrim (s : String) : String := ⟨trimChars s.data⟩

/-- `s.slice(0, n)`. -/
def jsSlice (s : String) (n : Nat) : String := ⟨s.data.take n⟩

/-- `s.replace(/\s+/g, " ")`: every maximal whitespace run becomes one
space.  The flag records whether the previous character was whitespace. -/
def collapseWsAux : List Char → Bool → List Char
  | [], _ => []
  | c :: cs, prevWs =>
    if isJsWs c then
      if prevWs then collapseWsAux cs true else ' ' :: collapseWsAux cs true
    else c :: collapseWsAux cs false

/-- `s.replace(/\s+/g, " ")` on a string. -/
def collapseWs (s : String) : String := ⟨collapseWsAux s.data false⟩

mutual

/-- JavaScript `String(v)` / `v.toString()` on a parsed JSON value:
`null` renders as the empty string (in this program `null` only meets
`toString` behind `?.`, where the chain short-circuits to `undefined` and
`|| ""` yields `""`, and inside `Array.prototype.join`, which renders `null`
as `""`; the two agree).  Arrays join their stringified elements with `,`;
objects render as `[object Object]`. -/
def jsToString : Json → String
  | .null => ""
  | .bool true => "true"
  | .bool false => "false"
  | .num lit => lit
  | .str s => s
  | .arr vs => String.intercalate "," (jsToStringList vs)
  | .obj _ => "[object Object]"

/-- Stringify each element of an array, for `Array.prototype.join`. -/
def jsToStringList : List Json → List String
  | [] => []
  | v :: vs => jsToString v :: jsToStringList vs

end

/-- `pd.field?.toString()?.trim() || ""` — the field-reading idiom of
`buildSearchQuery` and `performWebSearch`. -/
def jsFieldTrim (pd : Json) (field : String) : String :=
  match pd.objGet field with
  | none => ""
  | some v => jsTrim (jsToString v)

/-- `(pd.visible_text || []).map(String)` — the element list of the
`visible_text` field.  Absent or `null`/falsy fields give `[]`; a truthy
non-array value would make the source throw a `TypeError` at `.join`, so
theorems about `buildSearchQuery` restrict `visible_text` to arrays (or
absent/null), the only shapes `ProductAttributes` allows. -/
def visibleTextList (pd : Json) : List Json :=
  match pd.objGet "visible_text" with
  | some (.arr vs) => vs
  | _ => []

/-! ## Data model -/

/-- A search result as produced by `BraveSearchService.search`. -/
structure SearchResult where
  title : String
  link : String
  snippet : String
deriving DecidableEq

/-- A successfully scraped page (`scrapeMultipleUrls` output element). -/
structure ScrapedPage where
  title : String
  url : String
  content : String
deriving DecidableEq

/-- The value `scrapeUrl` returns on success:
`{ url, content: textContent.slice(0, maxLength), success: true }`. -/
structure ScrapedContent where
  url : String
  content : String
  success : Bool
deriving DecidableEq

/-- `map` with the element index, as in `Array.prototype.map((r, i) => …)`. -/
def mapWithIndex (f : Nat → α → β) : Nat → List α → List β
  | _, [] => []
  | i, x :: xs => f i x :: mapWithIndex f (i + 1) xs

namespace Utils

/-- `Utils.formatScrapedContentForLLM` (src/services/utils.js lines 24-32):
number the first `maxResults` pages, collapsing/trimming/capping each page's
content at 2000 characters, joined by blank lines. -/
def formatScrapedContentForLLM (scrapedResults : List ScrapedPage) (maxResults : Nat) : String :=
  String.intercalate "\n\n" (mapWithIndex (fun i r =>
    toString (i + 1) ++ ". Title: " ++ r.title ++ "\n   URL: " ++ r.url ++
      "\n   Content: " ++ jsSlice (jsTrim (collapseWs r.content)) 2000) 0
    (scrapedResults.take maxResults))

end Utils

/-! ## ContentFetcher (`WebScrapingService`) -/

/-- Outcome of `fetch(url, …)` inside `scrapeUrl`: the call throws (network
error / timeout), returns a non-success status (`!response.ok`), or returns
a body. -/
inductive FetchOutcome where
  | throws
  | notOk
  | ok (html : String)

namespace WebScrapingService

/-- `WebScrapingService.scrapeUrl` (src/services/utils.js lines 38-58).
`fetchFn` is the network oracle; `sanitize` stands for
`extractTextFromHTML`, whose regex-based internals no claim depends on
(theorems quantify over every sanitizer, so they hold for the real one).
A thrown fetch, a non-success status, or empty sanitized text gives `null`;
otherwise the content is capped at `maxLength`. -/
def scrapeUrl (fetchFn : String → FetchOutcome) (sanitize : String → String)
    (url : String) (maxLength : Nat) : Option ScrapedContent :=
  match fetchFn url with
  | .throws => none
  | .notOk => none
  | .ok html =>
    let textContent := sanitize html
    if textContent = "" then none
    else some ⟨url, jsSlice textContent maxLength, true⟩

/-- One iteration of the `scrapeMultipleUrls` loop body: scrape (with the
default cap of 3000) and keep the page only when
`scrapedContent && scrapedContent.success`. -/
def scrapeStep (fetchFn : String → FetchOutcome) (sanitize : String → String)
    (result : SearchResult) : Option ScrapedPage :=
  match scrapeUrl fetchFn sanitize result.link 3000 with
  | some sc => if sc.success then some ⟨result.title, result.link, sc.content⟩ else none
  | none => none

/-- The sequential loop of `scrapeMultipleUrls`: successes are pushed in
input order, failures skipped (the inter-request 500 ms delay has no
observable effect on the result). -/
def scrapeLoop (fetchFn : String → FetchOutcome) (sanitize : String → String) :
    List SearchResult → List ScrapedPage
  | [] => []
  | r :: rest =>
    match scrapeStep fetchFn sanitize r with
    | some page => page :: scrapeLoop fetchFn sanitize rest
    | none => scrapeLoop fetchFn sanitize rest

/-- `WebScrapingService.scrapeMultipleUrls` (src/services/utils.js lines
79-96): scrape the first `maxUrls` search results in order. -/
def scrapeMultipleUrls (fetchFn : String → FetchOutcome) (sanitize : String → String)
    (searchResults : List SearchResult) (maxUrls : Nat) : List ScrapedPage :=
  scrapeLoop fetchFn sanitize (searchResults.take maxUrls)

end WebScrapingService

/-! ## QueryBuilder and SearchOrchestrator (`ImageAnalysisService`) -/

/-- Observable actions of `performWebSearch`, in execution order: courtesy
delays (`setTimeout`) and calls to `BraveSearchService.search`. -/
inductive Event where
  | delay (ms : Nat)
  | searchCall (query : String) (count : Nat)
deriving DecidableEq

/-- One entry of the `allResults` accumulator of `performWebSearch`. -/
structure SearchGroup where
  query : String
  results : List SearchResult
deriving DecidableEq

namespace ImageAnalysisService

/-- `ImageAnalysisService.buildSearchQuery` (src/unnamed/part_001 lines
37-48): brand+name, else barcode, else the first four visible-text entries,
prefixed by the fixed phrase and trimmed. -/
def buildSearchQuery (productData : Json) : String :=
  let brand := jsFieldTrim productData "brand"
  let pname := jsFieldTrim productData "product_name"
  let barcode := jsFieldTrim productData "barcode_or_upc"
  let primaryQuery := jsTrim (String.intercalate " " ([brand, pname].filter (· ≠ "")))
  let primaryQuery := if primaryQuery = "" ∧ barcode ≠ "" then barcode else primaryQuery
  let primaryQuery :=
    if primaryQuery = "" then
      jsTrim (String.intercalate " " (((visibleTextList productData).take 4).map jsToString))
    else primaryQuery
  jsTrim (" nutrition facts, ingredients for " ++ primaryQuery)

/-- `ImageAnalysisService.performWebSearch` (src/unnamed/part_001 lines
50-74), instrumented: returns the flattened results together with the trace
of delays and `BraveSearchService.search` calls.  `searchSvc` is the search
oracle; `.error` models a thrown search (network failure or non-success
response). -/
def performWebSearch (searchSvc : String → Nat → Except String (List SearchResult))
    (primaryQuery : String) (productData : Json) : List SearchResult × List Event :=
  match searchSvc primaryQuery 8 with
  | .ok rs =>
    (([⟨primaryQuery, rs⟩] : List SearchGroup).map SearchGroup.results |>.flatten,
      [Event.searchCall primaryQuery 8])
  | .error _ =>
    let pname := jsFieldTrim productData "product_name"
    let step2 : List SearchGroup × List Event :=
      if pname ≠ "" ∧ pname ≠ primaryQuery then
        let fallbackQuery := pname ++ " nutrition facts ingredients"
        match searchSvc fallbackQuery 8 with
        | .ok rs => ([⟨fallbackQuery, rs⟩], [Event.delay 400, Event.searchCall fallbackQuery 8])
        | .error _ => ([], [Event.delay 400, Event.searchCall fallbackQuery 8])
      else ([], [])
    let barcode := jsFieldTrim productData "barcode_or_upc"
    let step3 : List SearchGroup × List Event :=
      if barcode ≠ "" ∧ step2.1.length = 0 then
        match searchSvc barcode 8 with
        | .ok rs =>
          ([⟨barcode ++ " nutrition facts", rs⟩], [Event.delay 400, Event.searchCall barcode 8])
        | .error _ => ([], [Event.delay 400, Event.searchCall barcode 8])
      else ([], [])
    (((step2.1 ++ step3.1).map SearchGroup.results).flatten,
      Event.searchCall primaryQuery 8 :: (step2.2 ++ step3.2))

/-- `ImageAnalysisService.analyzeProductImage` (src/unnamed/part_001 lines
7-35): the vision reply is parsed with `extractJsonFromText`; since a parsed
`{…}` span is always an object (truthy), the `|| { product_name: null,
brand: null }` default fires exactly when extraction returned `null`. -/
def analyzeProductImage (vision : String → String) (imageUrl : String) : Json :=
  (Utils.extractJsonFromText (vision imageUrl)).getD
    (Json.obj [("product_name", Json.null), ("brand", Json.null)])

end ImageAnalysisService

/-! ## AnalysisPipeline -/

/-- The external collaborators of one pipeline run.  The fixed prompt text
is configuration (spec §1), so the synthesis oracle receives the two dynamic
prompt inputs: the product data and the formatted scraped block. -/
structure Oracles where
  vision : String → String
  searchSvc : String → Nat → Except String (List SearchResult)
  fetchPage : String → FetchOutcome
  sanitize : String → String
  synthesis : Json → String → String

namespace ComprehensiveAnalysisService

/-- `ComprehensiveAnalysisService.analyzeComprehensive` (src/unnamed/part_001
lines 78-315): scrape the top 5 of the top 6 results, format the scraped
block, call synthesis, and extract JSON from the reply. -/
def analyzeComprehensive (o : Oracles) (productData : Json)
    (searchResults : List SearchResult) : Option Json :=
  let topResults := searchResults.take 6
  let scrapedContent := WebScrapingService.scrapeMultipleUrls o.fetchPage o.sanitize topResults 5
  let scrapedBlock := Utils.formatScrapedContentForLLM scrapedContent 5
  Utils.extractJsonFromText (o.synthesis productData scrapedBlock)

end ComprehensiveAnalysisService

/-- The debug block of a successful `/analyze-comprehensive` response. -/
structure DebugInfo where
  searchQuery : String
  searchResultsCount : Nat
  scrapedPagesCount : Nat
deriving DecidableEq

/-- The response of the `/analyze-comprehensive` handler: 400 when
`imageUrl` is missing, the 500 partial-failure envelope when synthesis
extraction fails, or the report spread together with the debug block. -/
inductive HandlerResponse where
  | badRequest (error : String)
  | parseFailure (error : String) (productData : Json) (searchQuery : String)
      (searchResults : List SearchResult)
  | success (report : Json) (debug : DebugInfo)

/-- The `app.post("/analyze-comprehensive")` handler (src/unnamed/part_000
lines 40-81, src/server.js lines 551-603).  The request body is modelled by
its `imageUrl` field. -/
def analyzeComprehensiveHandler (o : Oracles) (imageUrl? : Option String) : HandlerResponse :=
  match imageUrl? with
  | none => .badRequest "imageUrl is required"
  | some imageUrl =>
    let productData := ImageAnalysisService.analyzeProductImage o.vision imageUrl
    let primaryQuery := ImageAnalysisService.buildSearchQuery productData
    let searchResults := (ImageAnalysisService.performWebSearch o.searchSvc primaryQuery productData).1
    match ComprehensiveAnalysisService.analyzeComprehensive o productData searchResults with
    | none =>
      .parseFailure "Failed to parse comprehensive analysis response" productData
        primaryQuery (searchResults.take 6)
    | some result =>
      .success result ⟨primaryQuery, searchResults.length, min 5 searchResults.length⟩

/-- The `scrapedPagesCount` of a success response (`none` otherwise). -/
def respScrapedCount : HandlerResponse → Option Nat
  | .success _ d => some d.scrapedPagesCount
  | _ => none

/-- The `searchResultsCount` of a success response (`none` otherwise). -/
def respSearchCount : HandlerResponse → Option Nat
  | .success _ d => some d.searchResultsCount
  | _ => none

/-- Whether the response is the full-success shape. -/
def respIsSuccess : HandlerResponse → Bool
  | .success _ _ => true
  | _ => false

/-- The product attributes of a run: stage 1 of the pipeline. -/
def pipelineProductData (o : Oracles) (imageUrl : String) : Json :=
  ImageAnalysisService.analyzeProductImage o.vision imageUrl

/-- The primary query of a run: stage 2 of the pipeline. -/
def pipelineQuery (o : Oracles) (imageUrl : String) : String :=
  ImageAnalysisService.buildSearchQuery (pipelineProductData o imageUrl)

/-- The aggregated search results of a run: stage 3 of the pipeline. -/
def pipelineSearchResults (o : Oracles) (imageUrl : String) : List SearchResult :=
  (ImageAnalysisService.performWebSearch o.searchSvc (pipelineQuery o imageUrl)
    (pipelineProductData o imageUrl)).1

/-- The formatted scraped block submitted to synthesis: stages 4-5. -/
def pipelineScrapedBlock (o : Oracles) (imageUrl : String) : String :=
  Utils.formatScrapedContentForLLM
    (WebScrapingService.scrapeMultipleUrls o.fetchPage o.sanitize
      ((pipelineSearchResults o imageUrl).take 6) 5) 5

/-! ## Claim-level specification definitions -/

/-- The query base exactly as the QueryBuilder claim words it: the first
non-empty base among (1) brand and product name trimmed and space-joined
skipping empty parts, (2) the barcode alone, (3) the first four visible-text
entries space-joined, (4) the empty string.
`buildSearchQuery_spec` relates the implementation to this choice. -/
def queryBase (pd : Json) : String :=
  let brandName :=
    jsTrim (String.intercalate " "
      ([jsFieldTrim pd "brand", jsFieldTrim pd "product_name"].filter (· ≠ "")))
  let barcode := jsFieldTrim pd "barcode_or_upc"
  let visText :=
    jsTrim (String.intercalate " " (((visibleTextList pd).take 4).map jsToString))
  if brandName ≠ "" then brandName
  else if barcode ≠ "" then barcode
  else visText

/-- The SearchOrchestrator fallback chain as the claim words it: on a thrown
primary attempt, one secondary call with `productName ++ " nutrition facts
ingredients"` after the fixed delay iff the product name is non-empty and
differs from the primary query; then one tertiary call with the raw barcode
after the same delay iff the secondary step did not run or also failed, a
barcode is present, and no result items were obtained yet; the value is the
concatenation of the successful attempts' results in execution order,
internal order preserved, no deduplication.
`performWebSearch_eq_fallback_chain` proves the implementation equal. -/
def searchFallbackSpec (searchSvc : String → Nat → Except String (List SearchResult))
    (primaryQuery : String) (productData : Json) : List SearchResult × List Event :=
  match searchSvc primaryQuery 8 with
  | .ok rs => (rs, [Event.searchCall primaryQuery 8])
  | .error _ =>
    let pname := jsFieldTrim productData "product_name"
    let barcode := jsFieldTrim productData "barcode_or_upc"
    let fallbackQuery := pname ++ " nutrition facts ingredients"
    let secondary : Option (Except String (List SearchResult)) :=
      if pname ≠ "" ∧ pname ≠ primaryQuery then some (searchSvc fallbackQuery 8) else none
    let secondaryEvents : List Event :=
      match secondary with
      | none => []
      | some _ => [Event.delay 400, Event.searchCall fallbackQuery 8]
    let resultsSoFar : List SearchResult :=
      match secondary with
      | some (.ok rs) => rs
      | _ => []
    let secondarySkippedOrFailed : Bool :=
      match secondary with
      | some (.ok _) => false
      | _ => true
    let tertiary : Option (Except String (List SearchResult)) :=
      if secondarySkippedOrFailed = true ∧ barcode ≠ "" ∧ resultsSoFar = [] then
        some (searchSvc barcode 8)
      else none
    let tertiaryEvents : List Event :=
      match tertiary with
      | none => []
      | some _ => [Event.delay 400, Event.searchCall barcode 8]
    let tertiaryResults : List SearchResult :=
      match tertiary with
      | some (.ok rs) => rs
      | _ => []
    (resultsSoFar ++ tertiaryResults,
      Event.searchCall primaryQuery 8 :: (secondaryEvents ++ tertiaryEvents))

/-! ## Helper lemmas -/

/-- An element of `cs` that fails `p` survives into `cs.dropWhile p`
(witnessed by some surviving element failing `p`). -/
lemma exists_not_of_dropWhile {p : Char → Bool} :
    ∀ {cs : List Char} {c : Char}, c ∈ cs → p c = false →
      ∃ x ∈ cs.dropWhile p, p x = false := by
  intro cs
  induction cs with
  | nil => intro c hc _; cases hc
  | cons a t ih =>
    intro c hc hpc
    by_cases hpa : p a
    · cases List.mem_cons.mp hc with
      | inl h => rw [h, hpa] at hpc; cases hpc
      | inr h =>
        obtain ⟨x, hx, hpx⟩ := ih h hpc
        exact ⟨x, by simpa [List.dropWhile_cons, hpa] using hx, hpx⟩
    · exact ⟨a, by simp [List.dropWhile_cons, hpa], by simpa using hpa⟩

/-- Trimming keeps a string non-empty as long as it has one
non-whitespace character. -/
lemma trimChars_ne_nil {cs : List Char} {c : Char} (hc : c ∈ cs)
    (hw : isJsWs c = false) : trimChars cs ≠ [] := by
  obtain ⟨x, hx, hpx⟩ := exists_not_of_dropWhile hc hw
  obtain ⟨y, hy, _⟩ := exists_not_of_dropWhile (List.mem_reverse.mpr hx) hpx
  intro h
  unfold trimChars at h
  rw [List.reverse_eq_nil_iff] at h
  rw [h] at hy
  cases hy

/-- The fixed phrase makes every built query non-empty after trimming. -/
lemma jsTrim_fixed_phrase_ne_empty (q : String) :
    jsTrim (" nutrition facts, ingredients for " ++ q) ≠ "" := by
  unfold jsTrim
  intro h
  have hd : trimChars ((" nutrition facts, ingredients for " ++ q).data) = [] := by
    have := congrArg String.data h
    simpa using this
  have hmem : 'n' ∈ (" nutrition facts, ingredients for " ++ q).data := by
    rw [String.data_append]
    exact List.mem_append.mpr (Or.inl (by decide))
  exact trimChars_ne_nil hmem (by decide) hd

/-- The two sequential conditional reassignments of `buildSearchQuery`
equal the first-non-empty precedence choice of the claim. -/
lemma seq_assign_eq_precedence (bn bc vt : String) :
    (if (if bn = "" ∧ bc ≠ "" then bc else bn) = "" then vt
      else (if bn = "" ∧ bc ≠ "" then bc else bn)) =
    (if bn ≠ "" then bn else if bc ≠ "" then bc else vt) := by
  by_cases h1 : bn = "" <;> by_cases h2 : bc = "" <;> simp [h1, h2]

/-- The sequential reassignment in `buildSearchQuery` implements the claim's
first-non-empty precedence choice. -/
lemma buildSearchQuery_eq_queryBase (pd : Json) :
    ImageAnalysisService.buildSearchQuery pd =
      jsTrim (" nutrition facts, ingredients for " ++ queryBase pd) :=
  congrArg (fun q => jsTrim (" nutrition facts, ingredients for " ++ q))
    (seq_assign_eq_precedence
      (jsTrim (String.intercalate " "
        ([jsFieldTrim pd "brand", jsFieldTrim pd "product_name"].filter (· ≠ ""))))
      (jsFieldTrim pd "barcode_or_upc")
      (jsTrim (String.intercalate " " (((visibleTextList pd).take 4).map jsToString))))

/-! ## Theorems for the claims -/

/-- **C7** (confirmed).  `QueryBuilder.build` (`buildSearchQuery`) is a pure
function (a plain Lean function here, so determinism and freedom from I/O
are by construction) that prefixes the claim's first-non-empty base
(`queryBase`: brand+name joined skipping empty parts, else the barcode, else
the first four visible-text entries, else empty) with the fixed phrase and
trims; the result is never the empty string, degrading to the fixed phrase
alone when all inputs are empty; and the three concrete examples of the
claim evaluate as stated. -/
theorem buildSearchQuery_spec :
    (∀ pd : Json, ImageAnalysisService.buildSearchQuery pd =
        jsTrim (" nutrition facts, ingredients for " ++ queryBase pd))
    ∧ (∀ pd : Json, ImageAnalysisService.buildSearchQuery pd ≠ "")
    ∧ ImageAnalysisService.buildSearchQuery
        (Json.obj [("brand", Json.str "Acme"), ("product_name", Json.str "Bar")])
        = "nutrition facts, ingredients for Acme Bar"
    ∧ ImageAnalysisService.buildSearchQuery (Json.obj [("barcode_or_upc", Json.str "012345")])
        = "nutrition facts, ingredients for 012345"
    ∧ ImageAnalysisService.buildSearchQuery
        (Json.obj [("visible_text",
          Json.arr [Json.str "A", Json.str "B", Json.str "C", Json.str "D", Json.str "E"])])
        = "nutrition facts, ingredients for A B C D"
    ∧ ImageAnalysisService.buildSearchQuery (Json.obj [])
        = "nutrition facts, ingredients for" := by
  refine ⟨buildSearchQuery_eq_queryBase, ?_, by decide, by decide, by decide, by decide⟩
  intro pd
  rw [buildSearchQuery_eq_queryBase pd]
  exact jsTrim_fixed_phrase_ne_empty (queryBase pd)

/-- **C2** counterexample.  The claim says the two failure outcomes of
`extractJsonFromText` are distinguishable; in the source both return the
same `null`: an input with no `{…}` span and an input whose span is not
valid JSON produce identical results, so a caller cannot tell them apart. -/
theorem extractJson_failures_same_null :
    Utils.extractJsonFromText "there is no json here" = none
    ∧ Utils.extractJsonFromText "{not valid json}" = none
    ∧ Utils.extractJsonFromText "there is no json here"
        = Utils.extractJsonFromText "{not valid json}" :=
  ⟨rfl, rfl, rfl⟩

/-- **C2** (corrected).  Both failure classes exist but collapse to the one
`null` outcome: every input without a `{…}` span fails with `none`, and
every input whose greedy span is not valid JSON also fails with `none` (the
parse error message only reaches `console.warn`, not the caller). -/
theorem extractJson_failure_modes (s : String) :
    (braceSpan s.data = none → Utils.extractJsonFromText s = none)
    ∧ (∀ span, braceSpan s.data = some span → jsonParseChars span = none →
        Utils.extractJsonFromText s = none) := by
  constructor
  · intro h
    unfold Utils.extractJsonFromText
    rw [h]
  · intro span h hp
    unfold Utils.extractJsonFromText
    rw [h]
    exact hp

/-- **C3** counterexample.  The claim says the substituted attributes object
carries a defaulted `confidence` field; the source's fallback is
`{ product_name: null, brand: null }`, which has no `confidence` member. -/
theorem vision_fallback_lacks_confidence :
    ImageAnalysisService.analyzeProductImage (fun _ => "the model returned no data") "img"
      = Json.obj [("product_name", Json.null), ("brand", Json.null)]
    ∧ (ImageAnalysisService.analyzeProductImage
        (fun _ => "the model returned no data") "img").objGet "confidence" = none :=
  ⟨rfl, rfl⟩

/-- **C3** (corrected).  When extraction of the vision reply fails the
pipeline does not abort: it substitutes the minimal object
`{ product_name: null, brand: null }` — every field it has is `null` — but
no `confidence` field is present and none is defaulted. -/
theorem vision_fallback_spec (vision : String → String) (imageUrl : String)
    (h : Utils.extractJsonFromText (vision imageUrl) = none) :
    ImageAnalysisService.analyzeProductImage vision imageUrl
      = Json.obj [("product_name", Json.null), ("brand", Json.null)]
    ∧ (ImageAnalysisService.analyzeProductImage vision imageUrl).objGet "confidence" = none
    ∧ (ImageAnalysisService.analyzeProductImage vision imageUrl).objGet "product_name"
        = some Json.null
    ∧ (ImageAnalysisService.analyzeProductImage vision imageUrl).objGet "brand"
        = some Json.null := by
  unfold ImageAnalysisService.analyzeProductImage
  rw [h]
  exact ⟨rfl, rfl, rfl, rfl⟩

/-- Witness for `vision_fallback_spec` at a concrete vision oracle whose
reply holds no JSON object. -/
theorem vision_fallback_spec_witness :
    ImageAnalysisService.analyzeProductImage (fun _ => "nothing structured") "urlX"
      = Json.obj [("product_name", Json.null), ("brand", Json.null)] :=
  (vision_fallback_spec (fun _ => "nothing structured") "urlX" rfl).1

/-- `firstIdx` on a cons, as a rewriting equation. -/
lemma firstIdx_cons (p : Char → Bool) (c : Char) (cs : List Char) :
    firstIdx p (c :: cs) = if p c then some 0 else (firstIdx p cs).map (· + 1) := rfl

/-- `firstIdx` over an append whose first part has no hit. -/
lemma firstIdx_append_of_none {p : Char → Bool} {l₁ : List Char}
    (h : firstIdx p l₁ = none) (l₂ : List Char) :
    firstIdx p (l₁ ++ l₂) = (firstIdx p l₂).map (· + l₁.length) := by
  induction l₁ with
  | nil =>
    cases hf : firstIdx p l₂ <;> simp [hf]
  | cons c t ih =>
    rw [firstIdx_cons] at h
    by_cases hpc : p c
    · simp [hpc] at h
    · simp only [hpc, Bool.false_eq_true, if_false] at h
      cases hft : firstIdx p t with
      | some k => rw [hft] at h; simp at h
      | none =>
        rw [List.cons_append, firstIdx_cons]
        simp only [hpc, Bool.false_eq_true, if_false]
        rw [ih hft]
        cases firstIdx p l₂ with
        | none => rfl
        | some k =>
          show some (k + t.length + 1) = some (k + (t.length + 1))
          exact congrArg some (by omega)

/-- A list with no `{` has no first `{` index. -/
lemma firstIdx_brace_none {l : List Char} (h : '{' ∉ l) :
    firstIdx (· = '{') l = none := by
  induction l with
  | nil => rfl
  | cons c t ih =>
    have hc : ¬(c = '{') := fun hc => h (hc ▸ List.mem_cons_self c t)
    unfold firstIdx
    rw [ih (fun hm => h (List.mem_cons_of_mem _ hm))]
    simp [hc]

/-- `lastIdx` over an append whose second part has no hit. -/
lemma lastIdx_append_of_none {p : Char → Bool} (l₁ : List Char) {l₂ : List Char}
    (h : lastIdx p l₂ = none) : lastIdx p (l₁ ++ l₂) = lastIdx p l₁ := by
  induction l₁ with
  | nil => simpa using h
  | cons c t ih =>
    show (match lastIdx p (t ++ l₂) with
          | some j => some (j + 1)
          | none => if p c then some 0 else none) =
        (match lastIdx p t with
          | some j => some (j + 1)
          | none => if p c then some 0 else none)
    rw [ih]

/-- A list with no `}` has no last `}` index. -/
lemma lastIdx_brace_none {l : List Char} (h : '}' ∉ l) :
    lastIdx (· = '}') l = none := by
  induction l with
  | nil => rfl
  | cons c t ih =>
    have hc : ¬(c = '}') := fun hc => h (hc ▸ List.mem_cons_self c t)
    unfold lastIdx
    rw [ih (fun hm => h (List.mem_cons_of_mem _ hm))]
    simp [hc]

/-- The last hit of a list ending in a hit is its final position. -/
lemma lastIdx_concat_of_true {p : Char → Bool} (l : List Char) {c : Char}
    (h : p c = true) : lastIdx p (l ++ [c]) = some l.length := by
  induction l with
  | nil => simp [lastIdx, h]
  | cons a t ih =>
    show (match lastIdx p (t ++ [c]) with
          | some j => some (j + 1)
          | none => if p a then some 0 else none) = some (a :: t).length
    rw [ih]
    simp

/-- The greedy `/\{[\s\S]*\}/` match on a well-bracketed object wrapped in
prose with no `{` before it and no `}` after it is exactly the object. -/
lemma braceSpan_wrapped (pre mid post : List Char) (hpre : '{' ∉ pre)
    (hpost : '}' ∉ post) :
    braceSpan (pre ++ ('{' :: mid ++ ['}']) ++ post) = some ('{' :: mid ++ ['}']) := by
  have hfirst : firstIdx (· = '{') (pre ++ ('{' :: mid ++ ['}']) ++ post)
      = some pre.length := by
    rw [List.append_assoc, firstIdx_append_of_none (firstIdx_brace_none hpre)]
    show (firstIdx (· = '{') ('{' :: (mid ++ ['}'] ++ post))).map (· + pre.length)
        = some pre.length
    unfold firstIdx
    simp
  have hlast : lastIdx (· = '}') (pre ++ ('{' :: mid ++ ['}']) ++ post)
      = some (pre.length + (mid.length + 1)) := by
    rw [lastIdx_append_of_none _ (lastIdx_brace_none hpost)]
    have hre : pre ++ ('{' :: mid ++ ['}']) = (pre ++ ('{' :: mid)) ++ ['}'] := by simp
    rw [hre, lastIdx_concat_of_true _ (by decide)]
    simp [List.length_append]
  unfold braceSpan
  rw [hfirst, hlast]
  have hlt : pre.length < pre.length + (mid.length + 1) := by omega
  have hidx : pre.length + (mid.length + 1) - pre.length + 1 = mid.length + 2 := by omega
  simp only [hlt, if_true]
  rw [hidx, List.append_assoc, List.drop_left]
  have hlen : ('{' :: mid ++ ['}']).length = mid.length + 2 := by simp
  rw [← hlen, List.take_left]

/-- **C9** (confirmed).  For an input that is a single well-formed JSON
object wrapped in prose — no `{` in the prose before it, no `}` in the prose
after it, the reading the claim's own greedy-span clause forces —
`extractJsonFromText` takes exactly the greedy span from the leftmost `{` to
the rightmost `}` (no balanced-brace matching) and returns the parse of that
object. -/
theorem extractJson_greedy_span (pre mid post : List Char) (v : Json)
    (hpre : '{' ∉ pre) (hpost : '}' ∉ post)
    (hparse : jsonParseChars ('{' :: mid ++ ['}']) = some v) :
    braceSpan (pre ++ ('{' :: mid ++ ['}']) ++ post) = some ('{' :: mid ++ ['}'])
    ∧ Utils.extractJsonFromText ⟨pre ++ ('{' :: mid ++ ['}']) ++ post⟩ = some v := by
  have hspan := braceSpan_wrapped pre mid post hpre hpost
  refine ⟨hspan, ?_⟩
  show (match braceSpan (pre ++ ('{' :: mid ++ ['}']) ++ post) with
        | none => none
        | some span => jsonParseChars span) = some v
  rw [hspan]
  exact hparse

/-- Witness for `extractJson_greedy_span`: a concrete LLM-style reply with
prose around one JSON object. -/
theorem extractJson_greedy_span_witness :
    Utils.extractJsonFromText
        ⟨"Sure, here is the reply: ".data ++ ('{' :: "\"a\": 1".data ++ ['}'])
          ++ " Anything else?".data⟩
      = some (Json.obj [("a", Json.num "1")]) :=
  (extractJson_greedy_span "Sure, here is the reply: ".data "\"a\": 1".data
    " Anything else?".data (Json.obj [("a", Json.num "1")])
    (by decide) (by decide) rfl).2

/-- **C5** (confirmed).  `performWebSearch` behaves exactly as the claim's
fallback chain (`searchFallbackSpec`): on a thrown primary attempt, exactly
one secondary call with `productName ++ " nutrition facts ingredients"`
after the fixed 400 ms delay iff the product name is non-empty and differs
from the primary query; exactly one tertiary call with the raw barcode
after the same delay iff the secondary step did not run or also failed, a
barcode is present and no results were obtained yet; the returned list is
the concatenation of the successful attempts' results in execution order,
internal order preserved, with no deduplication.  (The source's tertiary
guard `allResults.length === 0` coincides with the claim's conditions: a
successful secondary attempt pushes a group even when its result list is
empty, and a skipped or failed one pushes nothing.) -/
theorem performWebSearch_eq_fallback_chain
    (searchSvc : String → Nat → Except String (List SearchResult))
    (primaryQuery : String) (productData : Json) :
    ImageAnalysisService.performWebSearch searchSvc primaryQuery productData
      = searchFallbackSpec searchSvc primaryQuery productData := by
  unfold ImageAnalysisService.performWebSearch searchFallbackSpec
  cases hp : searchSvc primaryQuery 8 with
  | ok rs => simp
  | error e =>
    by_cases h1 : jsFieldTrim productData "product_name" ≠ ""
        ∧ jsFieldTrim productData "product_name" ≠ primaryQuery
    · simp only [h1, if_true, if_pos h1]
      cases hs : searchSvc (jsFieldTrim productData "product_name"
          ++ " nutrition facts ingredients") 8 with
      | ok rs₂ =>
        by_cases hb : jsFieldTrim productData "barcode_or_upc" ≠ ""
        · simp [hb]
        · simp [hb]
      | error e₂ =>
        by_cases hb : jsFieldTrim productData "barcode_or_upc" ≠ ""
        · simp only [hb, true_and, List.length_nil]
          cases ht : searchSvc (jsFieldTrim productData "barcode_or_upc") 8 with
          | ok rs₃ => simp [hb]
          | error e₃ => simp [hb]
        · simp [hb]
    · simp only [h1, if_false, if_neg h1]
      by_cases hb : jsFieldTrim productData "barcode_or_upc" ≠ ""
      · simp only [hb, true_and, List.length_nil]
        cases ht : searchSvc (jsFieldTrim productData "barcode_or_upc") 8 with
        | ok rs₃ => simp [hb]
        | error e₃ => simp [hb]
      · simp [hb]

/-- **C6** (confirmed).  `performWebSearch` is a total function of its
oracles (so it never throws — every failure of an individual attempt is
absorbed by the `try`/`catch` structure), and when every search attempt
fails it returns the empty result list. -/
theorem performWebSearch_never_throws
    (searchSvc : String → Nat → Except String (List SearchResult))
    (primaryQuery : String) (productData : Json)
    (hall : ∀ query count, ∃ msg, searchSvc query count = Except.error msg) :
    (ImageAnalysisService.performWebSearch searchSvc primaryQuery productData).1 = [] := by
  unfold ImageAnalysisService.performWebSearch
  obtain ⟨m₁, h₁⟩ := hall primaryQuery 8
  rw [h₁]
  obtain ⟨m₂, h₂⟩ := hall (jsFieldTrim productData "product_name"
      ++ " nutrition facts ingredients") 8
  obtain ⟨m₃, h₃⟩ := hall (jsFieldTrim productData "barcode_or_upc") 8
  by_cases hc : jsFieldTrim productData "product_name" ≠ ""
      ∧ jsFieldTrim productData "product_name" ≠ primaryQuery
  · simp only [hc, if_true, if_pos hc, h₂]
    by_cases hb : jsFieldTrim productData "barcode_or_upc" ≠ ""
    · simp [hb, h₃]
    · simp [hb]
  · simp only [hc, if_false, if_neg hc]
    by_cases hb : jsFieldTrim productData "barcode_or_upc" ≠ ""
    · simp [hb, h₃]
    · simp [hb]

/-- Witness for `performWebSearch_never_throws`: an oracle that always
throws, with a product name and a barcode present, still yields `[]`. -/
theorem performWebSearch_never_throws_witness :
    (ImageAnalysisService.performWebSearch (fun _ _ => Except.error "network down")
      "some query"
      (Json.obj [("product_name", Json.str "Acme Bar"),
        ("barcode_or_upc", Json.str "012345")])).1 = [] :=
  performWebSearch_never_throws (fun _ _ => Except.error "network down") "some query"
    (Json.obj [("product_name", Json.str "Acme Bar"),
      ("barcode_or_upc", Json.str "012345")])
    (fun _ _ => ⟨"network down", rfl⟩)

/-- **C10** (confirmed, implicit claim).  A primary attempt that succeeds
with zero results triggers no fallback at all: the whole run makes exactly
the one primary search call (no delay, no secondary, no tertiary event) and
returns the empty list, even when a product name or barcode is available. -/
theorem primary_empty_success_no_fallback
    (searchSvc : String → Nat → Except String (List SearchResult))
    (primaryQuery : String) (productData : Json)
    (h : searchSvc primaryQuery 8 = Except.ok []) :
    ImageAnalysisService.performWebSearch searchSvc primaryQuery productData
      = ([], [Event.searchCall primaryQuery 8]) := by
  unfold ImageAnalysisService.performWebSearch
  rw [h]
  simp

/-- Witness for `primary_empty_success_no_fallback`: a succeeding oracle
with zero results and attributes that offer both fallback inputs. -/
theorem primary_empty_success_no_fallback_witness :
    ImageAnalysisService.performWebSearch (fun _ _ => Except.ok [])
      "the query"
      (Json.obj [("product_name", Json.str "Acme Bar"),
        ("barcode_or_upc", Json.str "012345")])
      = ([], [Event.searchCall "the query" 8]) :=
  primary_empty_success_no_fallback (fun _ _ => Except.ok []) "the query"
    (Json.obj [("product_name", Json.str "Acme Bar"),
      ("barcode_or_upc", Json.str "012345")]) rfl

/-- The loop of `scrapeMultipleUrls` collects exactly the successful steps,
in input order. -/
lemma scrapeLoop_eq_filterMap (fetchFn : String → FetchOutcome)
    (sanitize : String → String) (rs : List SearchResult) :
    WebScrapingService.scrapeLoop fetchFn sanitize rs
      = rs.filterMap (WebScrapingService.scrapeStep fetchFn sanitize) := by
  induction rs with
  | nil => rfl
  | cons r rest ih =>
    unfold WebScrapingService.scrapeLoop
    rw [List.filterMap_cons]
    cases h : WebScrapingService.scrapeStep fetchFn sanitize r <;> simp [h, ih]

/-- `s.slice(0, n)` never exceeds `n` characters. -/
lemma jsSlice_length_le (s : String) (n : Nat) : (jsSlice s n).length ≤ n := by
  show (s.data.take n).length ≤ n
  rw [List.length_take]
  omega

/-- **C8** (confirmed).  `scrapeMultipleUrls` never fails as a whole (it is
a total function of its oracles): it attempts exactly the first `maxUrls`
results in input order — the result is their `filterMap`, so the produced
pages keep the input's relative order — yields at most `maxUrls` pages,
omits without retry every URL whose fetch throws, returns a non-success
status, or sanitizes to empty text, and caps every produced page's content
at 3000 characters (the `scrapeUrl` default used by the loop). -/
theorem scrapeMultipleUrls_spec (fetchFn : String → FetchOutcome)
    (sanitize : String → String) (searchResults : List SearchResult) (maxUrls : Nat) :
    WebScrapingService.scrapeMultipleUrls fetchFn sanitize searchResults maxUrls
      = (searchResults.take maxUrls).filterMap
          (WebScrapingService.scrapeStep fetchFn sanitize)
    ∧ (WebScrapingService.scrapeMultipleUrls fetchFn sanitize searchResults maxUrls).length
        ≤ maxUrls
    ∧ (∀ r : SearchResult,
        fetchFn r.link = FetchOutcome.throws ∨ fetchFn r.link = FetchOutcome.notOk ∨
          (∃ html, fetchFn r.link = FetchOutcome.ok html ∧ sanitize html = "") →
        WebScrapingService.scrapeStep fetchFn sanitize r = none)
    ∧ (∀ p ∈ WebScrapingService.scrapeMultipleUrls fetchFn sanitize searchResults maxUrls,
        p.content.length ≤ 3000) := by
  have heq : WebScrapingService.scrapeMultipleUrls fetchFn sanitize searchResults maxUrls
      = (searchResults.take maxUrls).filterMap
          (WebScrapingService.scrapeStep fetchFn sanitize) :=
    scrapeLoop_eq_filterMap fetchFn sanitize (searchResults.take maxUrls)
  refine ⟨heq, ?_, ?_, ?_⟩
  · rw [heq]
    calc ((searchResults.take maxUrls).filterMap
          (WebScrapingService.scrapeStep fetchFn sanitize)).length
        ≤ (searchResults.take maxUrls).length := List.length_filterMap_le _ _
      _ ≤ maxUrls := by rw [List.length_take]; omega
  · intro r h
    unfold WebScrapingService.scrapeStep WebScrapingService.scrapeUrl
    rcases h with h | h | ⟨html, hok, hempty⟩
    · rw [h]
    · rw [h]
    · rw [hok]
      simp [hempty]
  · intro p hp
    rw [heq] at hp
    obtain ⟨r, _, hstep⟩ := List.mem_filterMap.mp hp
    unfold WebScrapingService.scrapeStep WebScrapingService.scrapeUrl at hstep
    cases hf : fetchFn r.link with
    | throws => rw [hf] at hstep; cases hstep
    | notOk => rw [hf] at hstep; cases hstep
    | ok html =>
      rw [hf] at hstep
      by_cases he : sanitize html = ""
      · simp [he] at hstep
      · simp only [he, if_false] at hstep
        have hps : ScrapedPage.mk r.title r.link (jsSlice (sanitize html) 3000) = p := by
          simpa using hstep
        rw [← hps]
        exact jsSlice_length_le (sanitize html) 3000

/-- The handler's control flow, written over the named pipeline stages
(definitional: the handler's `let` chain is exactly this composition). -/
lemma handler_unfold (o : Oracles) (imageUrl : String) :
    analyzeComprehensiveHandler o (some imageUrl) =
      match ComprehensiveAnalysisService.analyzeComprehensive o (pipelineProductData o imageUrl)
          (pipelineSearchResults o imageUrl) with
      | none => HandlerResponse.parseFailure "Failed to parse comprehensive analysis response"
          (pipelineProductData o imageUrl) (pipelineQuery o imageUrl)
          ((pipelineSearchResults o imageUrl).take 6)
      | some result => HandlerResponse.success result
          ⟨pipelineQuery o imageUrl, (pipelineSearchResults o imageUrl).length,
            min 5 (pipelineSearchResults o imageUrl).length⟩ := rfl

/-- **C4** (confirmed).  When extraction of the synthesis reply fails, the
caller receives the 500 partial-failure envelope — the error flag string,
the intermediate product attributes, the search query, and the raw search
results (their first six, untouched) — instead of the report, and it is
distinguishable from every full-success response by its constructor. -/
theorem synthesis_failure_envelope (o : Oracles) (imageUrl : String)
    (h : Utils.extractJsonFromText
        (o.synthesis (pipelineProductData o imageUrl) (pipelineScrapedBlock o imageUrl))
      = none) :
    analyzeComprehensiveHandler o (some imageUrl)
      = HandlerResponse.parseFailure "Failed to parse comprehensive analysis response"
          (pipelineProductData o imageUrl) (pipelineQuery o imageUrl)
          ((pipelineSearchResults o imageUrl).take 6)
    ∧ ∀ r d, analyzeComprehensiveHandler o (some imageUrl)
        ≠ HandlerResponse.success r d := by
  have hc : ComprehensiveAnalysisService.analyzeComprehensive o (pipelineProductData o imageUrl)
      (pipelineSearchResults o imageUrl) = none := h
  have h1 : analyzeComprehensiveHandler o (some imageUrl)
      = HandlerResponse.parseFailure "Failed to parse comprehensive analysis response"
        (pipelineProductData o imageUrl) (pipelineQuery o imageUrl)
        ((pipelineSearchResults o imageUrl).take 6) := by
    rw [handler_unfold, hc]
  refine ⟨h1, fun r d hcontra => ?_⟩
  rw [h1] at hcontra
  cases hcontra

/-- Eight concrete search results for the end-to-end runs below. -/
def c1Results : List SearchResult :=
  [⟨"r1", "u1", "s1"⟩, ⟨"r2", "u2", "s2"⟩, ⟨"r3", "u3", "s3"⟩, ⟨"r4", "u4", "s4"⟩,
   ⟨"r5", "u5", "s5"⟩, ⟨"r6", "u6", "s6"⟩, ⟨"r7", "u7", "s7"⟩, ⟨"r8", "u8", "s8"⟩]

/-- Oracles of the end-to-end success run of the claim's scenario: vision
identifies the product, search returns 8 results, fetching succeeds for the
first three of the five attempted URLs only, synthesis returns valid JSON. -/
def c1Oracles : Oracles where
  vision := fun _ =>
    "\x7b\"brand\":\"Acme\",\"product_name\":\"Protein Bar\",\"visible_text\":[]\x7d"
  searchSvc := fun _ _ => Except.ok c1Results
  fetchPage := fun u =>
    if u = "u1" ∨ u = "u2" ∨ u = "u3" then FetchOutcome.ok "nutrition data"
    else FetchOutcome.throws
  sanitize := fun h => h
  synthesis := fun _ _ => "\x7b\"status\": true\x7d"

/-- Oracles of a run whose synthesis reply holds no JSON object (every
page fetch also fails, which the pipeline tolerates). -/
def c4Oracles : Oracles where
  vision := fun _ =>
    "\x7b\"brand\":\"Acme\",\"product_name\":\"Protein Bar\",\"visible_text\":[]\x7d"
  searchSvc := fun _ _ => Except.ok c1Results
  fetchPage := fun _ => FetchOutcome.throws
  sanitize := fun h => h
  synthesis := fun _ _ => "no structured output"

/-- Witness for `synthesis_failure_envelope`: with a synthesis oracle whose
reply holds no JSON, the handler's response is not a success. -/
theorem synthesis_failure_envelope_witness :
    analyzeComprehensiveHandler c4Oracles (some "img2")
      ≠ HandlerResponse.success (Json.obj []) (DebugInfo.mk "" 0 0) :=
  (synthesis_failure_envelope c4Oracles "img2" rfl).2 (Json.obj []) (DebugInfo.mk "" 0 0)

/-- **C1** counterexample.  In the claim's scenario — the search yields 8
results, 5 pages are attempted and exactly 3 scrapes succeed — the returned
debug block reports `searchResultsCount = 8` but `scrapedPagesCount = 5`,
the attempted count `min(5, 8)`, not the count 3 of pages actually
scraped. -/
theorem debug_scraped_count_cex :
    respSearchCount (analyzeComprehensiveHandler c1Oracles (some "img")) = some 8
    ∧ respScrapedCount (analyzeComprehensiveHandler c1Oracles (some "img")) = some 5
    ∧ (WebScrapingService.scrapeMultipleUrls c1Oracles.fetchPage c1Oracles.sanitize
        ((pipelineSearchResults c1Oracles "img").take 6) 5).length = 3
    ∧ (5 : Nat) ≠ 3 :=
  ⟨by decide, by decide, by decide, by decide⟩

/-- **C1** (corrected).  In every successful run of the claim's scenario
(search yields 8 results, the first five are attempted, exactly 3 scrapes
succeed) the debug block reports `searchResultsCount = 8` — but its
`scrapedPagesCount` is `min(5, searchResultsCount) = 5`, the number of
pages attempted, and so differs from the count of pages actually
scraped. -/
theorem debug_counts_report_attempted (o : Oracles) (imageUrl : String)
    (r : Json) (d : DebugInfo)
    (hs : analyzeComprehensiveHandler o (some imageUrl) = HandlerResponse.success r d)
    (h8 : (pipelineSearchResults o imageUrl).length = 8)
    (h3 : (WebScrapingService.scrapeMultipleUrls o.fetchPage o.sanitize
        ((pipelineSearchResults o imageUrl).take 6) 5).length = 3) :
    d.searchResultsCount = 8 ∧ d.scrapedPagesCount = 5
    ∧ d.scrapedPagesCount ≠ (WebScrapingService.scrapeMultipleUrls o.fetchPage o.sanitize
        ((pipelineSearchResults o imageUrl).take 6) 5).length := by
  rw [handler_unfold] at hs
  cases hsyn : ComprehensiveAnalysisService.analyzeComprehensive o
      (pipelineProductData o imageUrl) (pipelineSearchResults o imageUrl) with
  | none => rw [hsyn] at hs; cases hs
  | some result =>
    rw [hsyn] at hs
    have hd : (⟨pipelineQuery o imageUrl, (pipelineSearchResults o imageUrl).length,
        min 5 (pipelineSearchResults o imageUrl).length⟩ : DebugInfo) = d := by
      cases hs; rfl
    rw [← hd, h3]
    refine ⟨?_, ?_, ?_⟩
    · exact h8
    · show min 5 (pipelineSearchResults o imageUrl).length = 5
      rw [h8]
      decide
    · show min 5 (pipelineSearchResults o imageUrl).length ≠ 3
      rw [h8]
      decide

/-- Witness for `debug_counts_report_attempted` at the concrete scenario
run `c1Oracles`. -/
theorem debug_counts_report_attempted_witness :
    (DebugInfo.mk "nutrition facts, ingredients for Acme Protein Bar" 8 5).searchResultsCount = 8
    ∧ (DebugInfo.mk "nutrition facts, ingredients for Acme Protein Bar" 8 5).scrapedPagesCount = 5
    ∧ (DebugInfo.mk "nutrition facts, ingredients for Acme Protein Bar" 8 5).scrapedPagesCount
        ≠ (WebScrapingService.scrapeMultipleUrls c1Oracles.fetchPage c1Oracles.sanitize
            ((pipelineSearchResults c1Oracles "img").take 6) 5).length :=
  debug_counts_report_attempted c1Oracles "img" (Json.obj [("status", Json.bool true)])
    (DebugInfo.mk "nutrition facts, ingredients for Acme Protein Bar" 8 5)
    rfl (by decide) (by decide)

end PrimeAI
